import Mathlib

/-!
Verification of the `const-cstr` library (`src/lib.rs`).

The library wraps a `&'static str` that is promised to be NUL-terminated and
free of interior NUL bytes, and exposes read-only views of it.  We embed a
Rust `&'static str` as its UTF-8 byte sequence, a `List Nat` (each element a
byte value).  Rust operations that can panic are modelled as `Option`-valued
functions where `none` is a panic.  A raw pointer is modelled by the byte
sequence readable from the returned address (the backing buffer), which is
exactly what the spec's pointer contract talks about.
-/

namespace ConstCStrModel

/-- Is `b` a UTF-8 continuation byte (`0b10xxxxxx`)? -/
def isCont (b : Nat) : Bool := decide (0x80 ≤ b) && decide (b ≤ 0xBF)

/-- Rust `str::is_char_boundary`: index `i` of byte string `s` is a character
boundary when it is the end of the string or the byte at `i` is not a UTF-8
continuation byte.  An index past the end is not a boundary. -/
def isCharBoundary (s : List Nat) (i : Nat) : Bool :=
  if i = s.length then true
  else
    match s.get? i with
    | some b => !(isCont b)
    | none => false

/-- UTF-8 validity of a byte sequence, following the byte-range table of
RFC 3629 (what Rust's `str` type guarantees): ASCII bytes stand alone,
`C2..DF` start 2-byte sequences, `E0..EF` start 3-byte sequences (with the
usual restrictions ruling out overlong forms and surrogates), `F0..F4`
start 4-byte sequences. -/
def utf8Valid : List Nat → Bool
  | [] => true
  | b :: rest =>
    if b ≤ 0x7F then utf8Valid rest
    else if 0xC2 ≤ b && b ≤ 0xDF then
      match rest with
      | c1 :: r => isCont c1 && utf8Valid r
      | [] => false
    else if b = 0xE0 then
      match rest with
      | c1 :: c2 :: r => decide (0xA0 ≤ c1) && decide (c1 ≤ 0xBF) && isCont c2 && utf8Valid r
      | _ => false
    else if 0xE1 ≤ b && b ≤ 0xEC then
      match rest with
      | c1 :: c2 :: r => isCont c1 && isCont c2 && utf8Valid r
      | _ => false
    else if b = 0xED then
      match rest with
      | c1 :: c2 :: r => decide (0x80 ≤ c1) && decide (c1 ≤ 0x9F) && isCont c2 && utf8Valid r
      | _ => false
    else if 0xEE ≤ b && b ≤ 0xEF then
      match rest with
      | c1 :: c2 :: r => isCont c1 && isCont c2 && utf8Valid r
      | _ => false
    else if b = 0xF0 then
      match rest with
      | c1 :: c2 :: c3 :: r =>
        decide (0x90 ≤ c1) && decide (c1 ≤ 0xBF) && isCont c2 && isCont c3 && utf8Valid r
      | _ => false
    else if 0xF1 ≤ b && b ≤ 0xF3 then
      match rest with
      | c1 :: c2 :: c3 :: r => isCont c1 && isCont c2 && isCont c3 && utf8Valid r
      | _ => false
    else if b = 0xF4 then
      match rest with
      | c1 :: c2 :: c3 :: r =>
        decide (0x80 ≤ c1) && decide (c1 ≤ 0x8F) && isCont c2 && isCont c3 && utf8Valid r
      | _ => false
    else false

/-- The type `ConstCStr` from `src/lib.rs`: a reference to a C-compatible
string constant, wrapping a single `&'static str` field `val`. -/
structure ConstCStr where
  val : List Nat
deriving DecidableEq

/-- Rust `CStr`: a borrowed C string, identified by its bytes including the
terminating NUL. -/
structure CStr where
  bytes : List Nat
deriving DecidableEq

/-- Rust `CStr::from_bytes_with_nul_unchecked`: wraps the byte slice without
any validation or scanning. -/
def CStr.from_bytes_with_nul_unchecked (b : List Nat) : CStr := ⟨b⟩

/-- Bytes of a `CStr` including the terminating NUL (Rust
`CStr::to_bytes_with_nul`). -/
def CStr.to_bytes_with_nul (cs : CStr) : List Nat := cs.bytes

/-- `ConstCStr::from_str_with_nul_unchecked`: wraps the slice with no
validation. -/
def ConstCStr.from_str_with_nul_unchecked (val : List Nat) : ConstCStr :=
  ⟨val⟩

/-- The `const_cstr!` macro: concatenates a single NUL byte to the literal at
build time and feeds the result to `from_str_with_nul_unchecked`. -/
def const_cstr (l : List Nat) : ConstCStr :=
  ConstCStr.from_str_with_nul_unchecked (l ++ [0])

/-- `ConstCStr::as_str`, which evaluates `&self.val[..self.val.len() - 1]`.
In Rust `self.val.len() - 1` underflows when `val` is empty (a panic in
debug builds; in release builds it wraps and the slice bound is then out of
range, also a panic), and the slice operation itself panics when the end
index is not a character boundary.  Both panics are `none`. -/
def ConstCStr.as_str (c : ConstCStr) : Option (List Nat) :=
  if c.val.length = 0 then none
  else if isCharBoundary c.val (c.val.length - 1) then
    some (c.val.take (c.val.length - 1))
  else none

/-- `ConstCStr::as_bytes`: `self.as_str().as_bytes()`.  Under the byte-list
embedding, viewing a `str` as bytes is the identity. -/
def ConstCStr.as_bytes (c : ConstCStr) : Option (List Nat) :=
  c.as_str

/-- `ConstCStr::as_bytes_with_nul`: `self.val.as_bytes()`, the whole wrapped
buffer, with no check of any kind. -/
def ConstCStr.as_bytes_with_nul (c : ConstCStr) : List Nat :=
  c.val

/-- `ConstCStr::as_ptr`: a pointer to the first byte of the buffer, modelled
by the byte sequence readable from the returned address, which is the whole
backing buffer. -/
def ConstCStr.as_ptr (c : ConstCStr) : List Nat :=
  c.val

/-- `ConstCStr::as_cstr`:
`CStr::from_bytes_with_nul_unchecked(self.as_bytes_with_nul())`. -/
def ConstCStr.as_cstr (c : ConstCStr) : CStr :=
  CStr.from_bytes_with_nul_unchecked c.as_bytes_with_nul

/-- The `Display` impl: renders `self.as_str()` (so it panics exactly when
`as_str` does). -/
def ConstCStr.fmt (c : ConstCStr) : Option (List Nat) :=
  c.as_str

/-- The `Default` impl: `const_cstr!("")`. -/
def ConstCStr.default : ConstCStr :=
  const_cstr []

/-- Derived `PartialEq`/`Eq` on `ConstCStr`: field-wise, i.e. byte equality
of the wrapped `&str`. -/
def ccEq (a b : ConstCStr) : Bool :=
  a.val == b.val

/-- Lexicographic strict order on byte sequences: the order of Rust `&str`
(and `[u8]`) comparison. -/
def bytesLt : List Nat → List Nat → Bool
  | _, [] => false
  | [], _ :: _ => true
  | a :: as, b :: bs => decide (a < b) || (a == b && bytesLt as bs)

/-- Derived `PartialOrd`/`Ord` on `ConstCStr`: field-wise, i.e. the
lexicographic byte order of the wrapped `&str`. -/
def ccLt (a b : ConstCStr) : Bool :=
  bytesLt a.val b.val

/-- Derived `Hash` on `ConstCStr`: hashes the single field `val`, so it is a
deterministic function of the wrapped bytes.  We model the hasher by a
concrete 64-bit polynomial hash; the claims only depend on it being a
function of `val`. -/
def ccHash (c : ConstCStr) : Nat :=
  c.val.foldl (fun h b => (h * 31 + b) % (2 ^ 64)) 5381

/-- Invariant A (termination): the buffer is non-empty and its final byte is
NUL. -/
def invA (c : ConstCStr) : Prop :=
  c.val ≠ [] ∧ c.val.getLast? = some 0

/-- Invariant B (no interior NUL): no byte before the final position is
`0x00`. -/
def invB (c : ConstCStr) : Prop :=
  (0 : Nat) ∉ c.val.dropLast

/-- Invariant C (encoding): the buffer is valid UTF-8 (guaranteed in Rust by
the `&str` type of the field). -/
def invC (c : ConstCStr) : Prop :=
  utf8Valid c.val = true

instance decInvA (c : ConstCStr) : Decidable (invA c) :=
  inferInstanceAs (Decidable (c.val ≠ [] ∧ c.val.getLast? = some 0))

instance decInvB (c : ConstCStr) : Decidable (invB c) :=
  inferInstanceAs (Decidable ((0 : Nat) ∉ c.val.dropLast))

instance decInvC (c : ConstCStr) : Decidable (invC c) :=
  inferInstanceAs (Decidable (utf8Valid c.val = true))

/-- Reading C-string bytes from a pointer: the bytes up to and including the
first `0x00`, or `none` when no NUL is ever found. -/
def readCString : List Nat → Option (List Nat)
  | [] => none
  | b :: rest => if b = 0 then some [0] else (readCString rest).map (fun t => b :: t)

/-- The `AsRef<str>` impl: `self.as_str()`. -/
def asRefStr (c : ConstCStr) : Option (List Nat) :=
  c.as_str

/-- The `AsRef<[u8]>` impl: `self.as_bytes()`. -/
def asRefBytes (c : ConstCStr) : Option (List Nat) :=
  c.as_bytes

/-- The `AsRef<CStr>` impl: `self.as_cstr()`. -/
def asRefCStr (c : ConstCStr) : CStr :=
  c.as_cstr

/-- The `From<ConstCStr> for &'static str` impl: `c.as_str()`. -/
def fromConstCStrToStr (c : ConstCStr) : Option (List Nat) :=
  c.as_str

/-- The `From<ConstCStr> for &'static [u8]` impl: `c.as_bytes()`. -/
def fromConstCStrToBytes (c : ConstCStr) : Option (List Nat) :=
  c.as_bytes

/-- The `From<ConstCStr> for *const c_char` impl: `c.as_ptr()`. -/
def fromConstCStrToPtr (c : ConstCStr) : List Nat :=
  c.as_ptr

/-- The `From<ConstCStr> for &'static CStr` impl: `c.as_cstr()`. -/
def fromConstCStrToCStr (c : ConstCStr) : CStr :=
  c.as_cstr

/-! ### Helper lemmas -/

lemma isCharBoundary_concat_nul (l : List Nat) :
    isCharBoundary (l ++ [0]) l.length = true := by
  unfold isCharBoundary
  have hlen : l.length ≠ (l ++ [0]).length := by simp
  simp only [hlen, if_false]
  rw [List.get?_concat_length]
  decide

lemma as_str_concat_nul (l : List Nat) : (const_cstr l).as_str = some l := by
  unfold const_cstr ConstCStr.from_str_with_nul_unchecked ConstCStr.as_str
  have h1 : (l ++ [0]).length = l.length + 1 := by simp
  simp only [h1, Nat.add_sub_cancel, Nat.succ_ne_zero, if_false]
  rw [isCharBoundary_concat_nul]
  simp [List.take_left]

lemma invA_shape {c : ConstCStr} (h : invA c) : c.val = c.val.dropLast ++ [0] := by
  obtain ⟨hne, hlast⟩ := h
  have := List.dropLast_append_getLast hne
  rw [List.getLast?_eq_getLast c.val hne] at hlast
  simp only [Option.some_inj] at hlast
  rw [hlast] at this
  exact this.symm

lemma as_str_of_invA {c : ConstCStr} (h : invA c) :
    c.as_str = some c.val.dropLast := by
  have hshape := invA_shape h
  have h2 : const_cstr c.val.dropLast = c := by
    cases c
    simp only [const_cstr, ConstCStr.from_str_with_nul_unchecked, ConstCStr.mk.injEq]
    exact hshape.symm
  conv_lhs => rw [← h2]
  rw [as_str_concat_nul]

lemma readCString_concat_nul (l : List Nat) (h : (0 : Nat) ∉ l) :
    readCString (l ++ [0]) = some (l ++ [0]) := by
  induction l with
  | nil => simp [readCString]
  | cons b bs ih =>
    have hb : b ≠ 0 := fun hb0 => h (hb0 ▸ List.mem_cons_self b bs)
    have hbs : (0 : Nat) ∉ bs := fun hm => h (List.mem_cons_of_mem b hm)
    simp [readCString, hb, ih hbs]

lemma bytesLt_concat_nul (x : List Nat) :
    ∀ y : List Nat, (0 : Nat) ∉ x → (0 : Nat) ∉ y →
      bytesLt (x ++ [0]) (y ++ [0]) = bytesLt x y := by
  induction x with
  | nil =>
    intro y _ hy
    cases y with
    | nil => simp [bytesLt]
    | cons b bs =>
      have hb : b ≠ 0 := fun hb0 => hy (hb0 ▸ List.mem_cons_self b bs)
      have hb1 : 0 < b := Nat.pos_of_ne_zero hb
      simp [bytesLt, hb1]
  | cons a as ih =>
    intro y hx hy
    have ha : a ≠ 0 := fun ha0 => hx (ha0 ▸ List.mem_cons_self a as)
    have has : (0 : Nat) ∉ as := fun hm => hx (List.mem_cons_of_mem a hm)
    cases y with
    | nil =>
      have : ¬ a < 0 := Nat.not_lt_zero a
      simp [bytesLt, this, ha]
    | cons b bs =>
      have hbs : (0 : Nat) ∉ bs := fun hm => hy (List.mem_cons_of_mem b hm)
      show (decide (a < b) || (a == b && bytesLt (as ++ [0]) (bs ++ [0]))) =
        (decide (a < b) || (a == b && bytesLt as bs))
      rw [ih bs has hbs]

lemma ccEq_iff_val {a b : ConstCStr} : ccEq a b = true ↔ a.val = b.val := by
  simp [ccEq]

/-! ### Claims -/

/-- C1: for every literal `L` containing no NUL byte,
`const_cstr!(L).as_str() == L` — the text view returns the original literal
with the trailing NUL excluded. -/
theorem C1_const_cstr_as_str (l : List Nat) (h : (0 : Nat) ∉ l) :
    (const_cstr l).as_str = some l :=
  as_str_concat_nul l

/-- Witness for C1 at the literal "hi" (bytes 104, 105). -/
theorem C1_witness :
    (0 : Nat) ∉ ([104, 105] : List Nat) ∧
    (const_cstr [104, 105]).as_str = some [104, 105] :=
  ⟨by decide, C1_const_cstr_as_str [104, 105] (by decide)⟩

/-- C2: for every literal `L` with no NUL byte, `as_bytes_with_nul()` is the
bytes of `L` followed by one `0x00`, its length is `len(L) + 1`, the byte at
index `len(L)` is `0x00`, and no earlier byte is `0x00`. -/
theorem C2_const_cstr_bytes_with_nul (l : List Nat) (h : (0 : Nat) ∉ l) :
    (const_cstr l).as_bytes_with_nul = l ++ [0] ∧
    (const_cstr l).as_bytes_with_nul.length = l.length + 1 ∧
    (const_cstr l).as_bytes_with_nul.get? l.length = some 0 ∧
    ∀ i, i < l.length → (const_cstr l).as_bytes_with_nul.get? i ≠ some 0 := by
  refine ⟨rfl, by simp [const_cstr, ConstCStr.from_str_with_nul_unchecked,
    ConstCStr.as_bytes_with_nul], ?_, ?_⟩
  · show (l ++ [0]).get? l.length = some 0
    exact List.get?_concat_length l 0
  · intro i hi hcontra
    show False
    have hget : (l ++ [0]).get? i = some 0 := hcontra
    rw [List.get?_append hi] at hget
    exact h (List.get?_mem hget)

/-- Witness for C2 at the literal "hi" (bytes 104, 105). -/
theorem C2_witness :
    (0 : Nat) ∉ ([104, 105] : List Nat) ∧
    ((const_cstr [104, 105]).as_bytes_with_nul = [104, 105] ++ [0] ∧
     (const_cstr [104, 105]).as_bytes_with_nul.length = 2 + 1 ∧
     (const_cstr [104, 105]).as_bytes_with_nul.get? 2 = some 0 ∧
     ∀ i, i < 2 → (const_cstr [104, 105]).as_bytes_with_nul.get? i ≠ some 0) :=
  ⟨by decide, C2_const_cstr_bytes_with_nul [104, 105] (by decide)⟩

/-- C5: `ConstCStr::default()` equals `const_cstr!("")`; its `as_str` is the
empty string and its `as_bytes_with_nul` is exactly one NUL byte. -/
theorem C5_default :
    ConstCStr.default = const_cstr [] ∧
    ConstCStr.default.as_str = some [] ∧
    ConstCStr.default.as_bytes_with_nul = [0] ∧
    ConstCStr.default.as_bytes_with_nul.length = 1 := by
  decide

/-- C9: constructing via `from_str_with_nul_unchecked` from the empty string
violates Invariant A, and then `as_str`, `as_bytes` and `Display` panic
(`self.val.len() - 1` underflows / the slice index is out of bounds),
modelled as `none`. -/
theorem C9_empty_input_panics :
    ¬ invA (ConstCStr.from_str_with_nul_unchecked []) ∧
    (ConstCStr.from_str_with_nul_unchecked []).as_str = none ∧
    (ConstCStr.from_str_with_nul_unchecked []).as_bytes = none ∧
    (ConstCStr.from_str_with_nul_unchecked []).fmt = none := by
  refine ⟨?_, rfl, rfl, rfl⟩
  intro h
  exact h.1 rfl

/-- C3: for instances satisfying Invariants A and B, derived equality holds
iff the text views agree, the derived order is the lexicographic order of the
text views, equal instances hash identically, and concretely
`const_cstr!("abc") == const_cstr!("abc")` and
`const_cstr!("abc") < const_cstr!("abd")`. -/
theorem C3_eq_ord_hash (a b : ConstCStr)
    (hA1 : invA a) (hB1 : invB a) (hA2 : invA b) (hB2 : invB b) :
    (ccEq a b = true ↔ a.as_str = b.as_str) ∧
    (∀ sa sb, a.as_str = some sa → b.as_str = some sb → ccLt a b = bytesLt sa sb) ∧
    (ccEq a b = true → ccHash a = ccHash b) ∧
    ccEq (const_cstr [97, 98, 99]) (const_cstr [97, 98, 99]) = true ∧
    ccLt (const_cstr [97, 98, 99]) (const_cstr [97, 98, 100]) = true := by
  have hsa := as_str_of_invA hA1
  have hsb := as_str_of_invA hA2
  have hshape_a := invA_shape hA1
  have hshape_b := invA_shape hA2
  refine ⟨?_, ?_, ?_, by decide, by decide⟩
  · rw [hsa, hsb, ccEq_iff_val]
    constructor
    · intro h; rw [h]
    · intro h
      simp only [Option.some_inj] at h
      rw [hshape_a, hshape_b, h]
  · intro sa sb ha hb
    rw [hsa] at ha
    rw [hsb] at hb
    simp only [Option.some_inj] at ha hb
    subst ha; subst hb
    show bytesLt a.val b.val = _
    conv_lhs => rw [hshape_a, hshape_b]
    exact bytesLt_concat_nul a.val.dropLast b.val.dropLast hB1 hB2
  · intro h
    rw [ccEq_iff_val] at h
    simp [ccHash, h]

/-- Witness for C3 at `const_cstr!("a")` and `const_cstr!("b")`. -/
theorem C3_witness :
    invA (const_cstr [97]) ∧ invB (const_cstr [97]) ∧
    invA (const_cstr [98]) ∧ invB (const_cstr [98]) ∧
    ((ccEq (const_cstr [97]) (const_cstr [98]) = true ↔
      (const_cstr [97]).as_str = (const_cstr [98]).as_str) ∧
     (∀ sa sb, (const_cstr [97]).as_str = some sa →
        (const_cstr [98]).as_str = some sb →
        ccLt (const_cstr [97]) (const_cstr [98]) = bytesLt sa sb) ∧
     (ccEq (const_cstr [97]) (const_cstr [98]) = true →
        ccHash (const_cstr [97]) = ccHash (const_cstr [98])) ∧
     ccEq (const_cstr [97, 98, 99]) (const_cstr [97, 98, 99]) = true ∧
     ccLt (const_cstr [97, 98, 99]) (const_cstr [97, 98, 100]) = true) :=
  ⟨by decide, by decide, by decide, by decide,
   C3_eq_ord_hash (const_cstr [97]) (const_cstr [98])
     (by decide) (by decide) (by decide) (by decide)⟩

/-- C4: pointer round-trip for `const_cstr!`: reading bytes from `as_ptr()`
up to and including the first `0x00` reproduces `as_bytes_with_nul()`, and
`as_ptr()` points at the first byte of that very buffer. -/
theorem C4_pointer_round_trip (l : List Nat) (h : (0 : Nat) ∉ l) :
    readCString (const_cstr l).as_ptr = some (const_cstr l).as_bytes_with_nul ∧
    (const_cstr l).as_ptr = (const_cstr l).as_bytes_with_nul :=
  ⟨readCString_concat_nul l h, rfl⟩

/-- Witness for C4 at the literal "hi" (bytes 104, 105). -/
theorem C4_witness :
    (0 : Nat) ∉ ([104, 105] : List Nat) ∧
    (readCString (const_cstr [104, 105]).as_ptr =
      some (const_cstr [104, 105]).as_bytes_with_nul ∧
     (const_cstr [104, 105]).as_ptr = (const_cstr [104, 105]).as_bytes_with_nul) :=
  ⟨by decide, C4_pointer_round_trip [104, 105] (by decide)⟩

/-- C6: for a `ConstCStr` satisfying Invariants A and B, the `CStr` returned
by `as_cstr()` has exactly the bytes of `as_bytes_with_nul()`; it is built by
the scan-free `CStr::from_bytes_with_nul_unchecked`. -/
theorem C6_as_cstr (c : ConstCStr) (hA : invA c) (hB : invB c) :
    c.as_cstr.to_bytes_with_nul = c.as_bytes_with_nul ∧
    c.as_cstr = CStr.from_bytes_with_nul_unchecked c.as_bytes_with_nul :=
  ⟨rfl, rfl⟩

/-- Witness for C6 at `const_cstr!("h")`. -/
theorem C6_witness :
    invA (const_cstr [104]) ∧ invB (const_cstr [104]) ∧
    ((const_cstr [104]).as_cstr.to_bytes_with_nul =
      (const_cstr [104]).as_bytes_with_nul ∧
     (const_cstr [104]).as_cstr =
      CStr.from_bytes_with_nul_unchecked (const_cstr [104]).as_bytes_with_nul) :=
  ⟨by decide, by decide, C6_as_cstr (const_cstr [104]) (by decide) (by decide)⟩

/-- C7: every conversion impl agrees with the corresponding view accessor:
`AsRef<str>`/`From` to `&str` with `as_str`, `AsRef<[u8]>`/`From` to `&[u8]`
with `as_bytes`, `From` to `*const c_char` with `as_ptr`, and
`AsRef<CStr>`/`From` to `&CStr` with `as_cstr`. -/
theorem C7_conversions (c : ConstCStr) :
    asRefStr c = c.as_str ∧
    asRefBytes c = c.as_bytes ∧
    asRefCStr c = c.as_cstr ∧
    fromConstCStrToStr c = c.as_str ∧
    fromConstCStrToBytes c = c.as_bytes ∧
    fromConstCStrToPtr c = c.as_ptr ∧
    fromConstCStrToCStr c = c.as_cstr :=
  ⟨rfl, rfl, rfl, rfl, rfl, rfl, rfl⟩

/-- C8: under Invariants A, B and C every view is total: `as_str`,
`as_bytes` and `Display` return a value (no panic), the slice index
`len - 1` inside `as_str` is in bounds and is a character boundary, and
`as_bytes_with_nul`, `as_ptr` and `as_cstr` return the buffer (they are
total by construction). -/
theorem C8_views_total (c : ConstCStr) (hA : invA c) (hB : invB c) (hC : invC c) :
    (∃ s, c.as_str = some s) ∧
    (∃ s, c.as_bytes = some s) ∧
    (∃ s, c.fmt = some s) ∧
    c.val.length - 1 < c.val.length ∧
    isCharBoundary c.val (c.val.length - 1) = true ∧
    c.as_bytes_with_nul = c.val ∧
    c.as_ptr = c.val ∧
    c.as_cstr.to_bytes_with_nul = c.val := by
  have hs := as_str_of_invA hA
  have hshape := invA_shape hA
  have hlen : c.val.length - 1 < c.val.length :=
    Nat.sub_lt (List.length_pos.mpr hA.1) Nat.one_pos
  refine ⟨⟨_, hs⟩, ⟨_, hs⟩, ⟨_, hs⟩, hlen, ?_, rfl, rfl, rfl⟩
  conv_lhs => rw [hshape]
  have hlen2 : (c.val.dropLast ++ [0]).length - 1 = c.val.dropLast.length := by simp
  rw [hlen2]
  exact isCharBoundary_concat_nul c.val.dropLast

/-- Witness for C8 at `const_cstr!("h")`. -/
theorem C8_witness :
    invA (const_cstr [104]) ∧ invB (const_cstr [104]) ∧ invC (const_cstr [104]) ∧
    ((∃ s, (const_cstr [104]).as_str = some s) ∧
     (∃ s, (const_cstr [104]).as_bytes = some s) ∧
     (∃ s, (const_cstr [104]).fmt = some s) ∧
     (const_cstr [104]).val.length - 1 < (const_cstr [104]).val.length ∧
     isCharBoundary (const_cstr [104]).val ((const_cstr [104]).val.length - 1) = true ∧
     (const_cstr [104]).as_bytes_with_nul = (const_cstr [104]).val ∧
     (const_cstr [104]).as_ptr = (const_cstr [104]).val ∧
     (const_cstr [104]).as_cstr.to_bytes_with_nul = (const_cstr [104]).val) :=
  ⟨by decide, by decide, by decide,
   C8_views_total (const_cstr [104]) (by decide) (by decide) (by decide)⟩

/-- C10 counterexample: the wrapped string "é" (bytes C3 A9) is valid UTF-8
and non-empty, and its last character removed is the empty string, yet
`as_str` does not return the string with its last character removed: it
panics (`none`), because the slice end `len - 1` falls inside the two-byte
character and is not a character boundary. -/
theorem C10_counterexample :
    utf8Valid [0xC3, 0xA9] = true ∧
    ([0xC3, 0xA9] : List Nat) ≠ [] ∧
    (ConstCStr.from_str_with_nul_unchecked [0xC3, 0xA9]).as_str ≠ some [] ∧
    (ConstCStr.from_str_with_nul_unchecked [0xC3, 0xA9]).as_str = none := by
  decide

/-- C10 (amended): no view validates the invariants.  For every non-empty
wrapped string `s` — even one that is not NUL-terminated or contains
interior NULs — `as_bytes_with_nul()` returns `s` unmodified; if the last
byte of `s` is not a UTF-8 continuation byte (in particular whenever the
final character is single-byte), `as_str()` returns `s` with its last byte
(= last character) removed and `as_bytes()` equals `as_bytes_with_nul()`
with the last byte dropped; if the last byte is a continuation byte (a
multi-byte final character), `as_str()` and `as_bytes()` panic instead. -/
theorem C10_no_validation (s : List Nat) (hne : s ≠ []) :
    (ConstCStr.from_str_with_nul_unchecked s).as_bytes_with_nul = s ∧
    (isCont (s.getLastD 0) = false →
      (ConstCStr.from_str_with_nul_unchecked s).as_str = some s.dropLast ∧
      (ConstCStr.from_str_with_nul_unchecked s).as_bytes = some s.dropLast) ∧
    (isCont (s.getLastD 0) = true →
      (ConstCStr.from_str_with_nul_unchecked s).as_str = none ∧
      (ConstCStr.from_str_with_nul_unchecked s).as_bytes = none) := by
  have hlen0 : s.length ≠ 0 := fun h => hne (List.eq_nil_of_length_eq_zero h)
  have hget : s.get? (s.length - 1) = some (s.getLastD 0) := by
    rw [List.get?_eq_getElem?, ← List.getLast?_eq_getElem?,
      List.getLast?_eq_getLast s hne, List.getLastD_eq_getLast?]
    rw [List.getLast?_eq_getLast s hne]
    rfl
  have hneq : s.length - 1 ≠ s.length := Nat.ne_of_lt (Nat.sub_lt (Nat.pos_of_ne_zero hlen0) Nat.one_pos)
  have hboundary : isCharBoundary s (s.length - 1) = !(isCont (s.getLastD 0)) := by
    unfold isCharBoundary
    simp only [hneq, if_false]
    rw [hget]
  refine ⟨rfl, ?_, ?_⟩
  · intro hcont
    have hsome : (ConstCStr.from_str_with_nul_unchecked s).as_str = some s.dropLast := by
      unfold ConstCStr.as_str ConstCStr.from_str_with_nul_unchecked
      simp only [hlen0, if_false]
      rw [hboundary, hcont]
      simp [List.dropLast_eq_take]
    exact ⟨hsome, hsome⟩
  · intro hcont
    have hnone : (ConstCStr.from_str_with_nul_unchecked s).as_str = none := by
      unfold ConstCStr.as_str ConstCStr.from_str_with_nul_unchecked
      simp only [hlen0, if_false]
      rw [hboundary, hcont]
      rfl
    exact ⟨hnone, hnone⟩

/-- Witness for the amended C10 at the non-NUL-terminated string "hi". -/
theorem C10_witness :
    ([104, 105] : List Nat) ≠ [] ∧
    ((ConstCStr.from_str_with_nul_unchecked [104, 105]).as_bytes_with_nul = [104, 105] ∧
     (isCont (([104, 105] : List Nat).getLastD 0) = false →
       (ConstCStr.from_str_with_nul_unchecked [104, 105]).as_str = some ([104, 105] : List Nat).dropLast ∧
       (ConstCStr.from_str_with_nul_unchecked [104, 105]).as_bytes = some ([104, 105] : List Nat).dropLast) ∧
     (isCont (([104, 105] : List Nat).getLastD 0) = true →
       (ConstCStr.from_str_with_nul_unchecked [104, 105]).as_str = none ∧
       (ConstCStr.from_str_with_nul_unchecked [104, 105]).as_bytes = none)) :=
  ⟨by decide, C10_no_validation [104, 105] (by decide)⟩

end ConstCStrModel
